import Mathlib

/-!
Verification of the CLE loader core (`src/cle/cle.py`, class `Ld`).

The definitions below are a shallow embedding of the Python source.  Pure
string manipulation (`str.strip`, `os.path.basename`, ...) is translated to
Lean functions on `String`/`List Char`; the loader's mutable state becomes an
explicit `LdState` record threaded through the operations; the unbounded
`while` loop of `_load_dependencies` takes a fuel argument, with a dedicated
result constructor marking fuel exhaustion; Python exceptions become explicit
error values.  Backend parsers (`ELF`, `IdaBin`, ... — separate files not
part of the loader core) are abstracted as an environment mapping paths to
parsed images, and the points where the loader touches backend code are
modelled from the specification and marked as such in their doc comments.
-/

namespace Cle

/-! ## Python string and path primitives used by cle.py -/

/-- Membership in the character set of Python `s.strip('.0123456789')`
(cle.py lines 114, 160, 191): the dot and the ASCII digits. -/
def isStripChar (c : Char) : Bool := c = '.' || c.isDigit

/-- Removal of the trailing run of strip characters: the right half of
Python `str.strip`. -/
def dropTrail (l : List Char) : List Char := (l.reverse.dropWhile isStripChar).reverse

/-- Python `s.strip('.0123456789')` as used by cle.py for fuzzy version
matching.  CPython `str.strip(chars)` removes characters drawn from `chars`
from BOTH ends of the string: the leading run and the trailing run. -/
def pyStrip (s : String) : String := ⟨(dropTrail s.data).dropWhile isStripChar⟩

/-- Python `os.path.basename`: the part of the path after the last `/`.
`basename "a/b" = "b"`, `basename "ab" = "ab"`, `basename "a/" = ""`. -/
def basename (s : String) : String :=
  ⟨(s.data.reverse.takeWhile (fun c => c ≠ '/')).reverse⟩

/-- Python `os.path.dirname` restricted to POSIX paths: everything before the
last `/`, with the trailing slashes of the head stripped unless the head is
all slashes (`dirname "a/b" = "a"`, `dirname "/a" = "/"`, `dirname "a" = ""`). -/
def dirname (s : String) : String :=
  if s.data.contains '/' then
    let head := (s.data.reverse.dropWhile (fun c => c ≠ '/')).reverse
    if head.all (fun c => c = '/') then ⟨head⟩
    else ⟨(head.reverse.dropWhile (fun c => c = '/')).reverse⟩
  else ""

/-- Python `os.path.join libdir path` for the shapes cle.py builds: `path`
never starts with `/` there (it is a bare library name). -/
def pjoin (libdir path : String) : String :=
  if libdir = "" then path
  else if libdir.data.getLastD ' ' = '/' then libdir ++ path
  else libdir ++ "/" ++ path

/-- Python `'/' in path`. -/
def containsSlash (s : String) : Bool := s.data.contains '/'

/-! ## Python dict and set primitives -/

/-- Python dict assignment `d[k] = v` on an insertion-ordered association
list: overwrite the existing binding of `k`, else append. -/
def dictSet {α β : Type} [DecidableEq α] (d : List (α × β)) (k : α) (v : β) :
    List (α × β) :=
  if d.any (fun p => p.1 = k) then d.map (fun p => if p.1 = k then (k, v) else p)
  else d ++ [(k, v)]

/-- Python dict lookup `d.get(k)`. -/
def dictGet {α β : Type} [DecidableEq α] (d : List (α × β)) (k : α) : Option β :=
  (d.find? (fun p => decide (p.1 = k))).map (fun p => p.2)

/-- Python `set.add`: sets are modelled as duplicate-free-by-construction
lists, only membership is ever observed. -/
def setAdd (s : List String) (x : String) : List String :=
  if x ∈ s then s else s ++ [x]

/-- Python `set.update xs`. -/
def setUnion (s : List String) (xs : List String) : List String :=
  xs.foldl setAdd s

/-! ## The image model

One parsed binary, the uniform surface the loader reads from every backend
(`deps`, `provides`, `exports`, `imports`, per-image memory, offset bounds).
The backend-specific parsing lives outside `cle.py`; images enter the loader
fully formed. -/

structure CleObj where
  /-- Filesystem path of origin (`obj.binary`). -/
  binary : String
  /-- The soname this image supplies, `None` for the main executable or a blob. -/
  provides : Option String
  /-- Declared dependency names, in declaration order. -/
  deps : List String
  /-- Key set of the image-local memory (`obj.memory`), image-local offsets. -/
  memOffsets : List Nat
  /-- Symbol name to image-local address (`obj.exports`), insertion-ordered dict. -/
  exports : List (String × Nat)
  /-- Symbol name to image-local slot address (`obj.imports`). -/
  imports : List (String × Nat)
  /-- `obj.get_min_addr()`: inclusive lower bound of the local memory. -/
  minOffset : Nat
  /-- `obj.get_max_addr()`: inclusive upper bound of the local memory. -/
  maxOffset : Nat
  /-- Whether the image is backed by the external tool (`isinstance(obj, IdaBin)`). -/
  isIda : Bool
  /-- Modelled from the spec: backends initialize `rebase_addr` before the
  orchestrator assigns it; `Ld.max_addr` reads it for every object in
  `all_objects`, including the just-appended one, so it needs a defined
  initial value, which is 0. -/
  rebase_addr : Nat := 0
  /-- TLS module id, written by `_perform_reloc`. -/
  tls_module_id : Nat := 0
  deriving Repr, DecidableEq, Inhabited

/-- The single mutation the loader performs on an image:
`obj.rebase_addr = base_addr`. -/
def withRebase (o : CleObj) (b : Nat) : CleObj := { o with rebase_addr := b }

/-! ## Loader state and configuration -/

/-- The flags of `Ld.__init__` that the claims depend on. -/
structure LdConfig where
  auto_load_libs : Bool := true
  ignore_import_version_numbers : Bool := true
  rebase_granularity : Nat := 16777216
  except_missing_libs : Bool := true
  deriving Repr, DecidableEq, Inhabited

/-- The mutable fields of `Ld` that the claims depend on.  The memory map
(`Clemory`, a separate file not part of the loader core) is modelled from the
spec as its list of registered backers: pairs of an absolute base address and
the backed image-local memory (identified by its key set). -/
structure LdState where
  /-- `_unsatisfied_deps`: FIFO queue of pending dependency names. -/
  unsatisfied : List String
  /-- `_satisfied_deps`: names already provided (plus fuzzy aliases). -/
  satisfied : List String
  /-- `requested_objects`: every dependency name ever declared by a loaded image. -/
  requested : List String
  /-- `all_objects`: every loaded image, in load order. -/
  all_objects : List CleObj
  /-- `shared_objects`: dict from `provides` to image. -/
  shared_objects : List (Option String × CleObj)
  /-- Modelled from the spec: the backers registered with the memory map by
  `add_backer` (§4.1); the Overlap failure is not modelled because no claim
  exercises it. -/
  backers : List (Nat × List Nat)
  deriving Repr, DecidableEq, Inhabited

/-! ## Address-space composition -/

/-- `Ld.max_addr` (cle.py:248): the maximum of `get_max_addr() + rebase_addr`
over `all_objects`.  Python `max` faults on an empty sequence; the loader only
calls this with at least one object loaded, and the model returns 0 there. -/
def max_addr (objs : List CleObj) : Nat :=
  (objs.map (fun o => o.maxOffset + o.rebase_addr)).foldr Nat.max 0

/-- `Ld._get_safe_rebase_addr` (cle.py:206):
`max_addr() + (granularity - max_addr() % granularity)`. -/
def get_safe_rebase_addr (granularity : Nat) (objs : List CleObj) : Nat :=
  max_addr objs + (granularity - max_addr objs % granularity)

/-- `Ld.add_object` (cle.py:146).  Ordering mirrors the source: dependencies
are queued (only under `auto_load_libs`) and always recorded in
`requested_objects`; `provides` and its fuzzy alias enter `_satisfied_deps`;
the object is appended to `all_objects` BEFORE a safe rebase address is
computed, so `max_addr` already sees it at its initial `rebase_addr` of 0;
for an `IdaBin` the function returns after `obj.rebase(base_addr)` without
registering a memory backer (`IdaBin.rebase` is backend code outside the
loader core; modelled from the spec as storing the chosen base on the
image), otherwise the backer is registered and `rebase_addr` stored. -/
def add_object (cfg : LdConfig) (st : LdState) (obj : CleObj) (base? : Option Nat) :
    LdState :=
  let unsat := if cfg.auto_load_libs then st.unsatisfied ++ obj.deps else st.unsatisfied
  let req := setUnion st.requested obj.deps
  let sat := match obj.provides with
    | none => st.satisfied
    | some p =>
      if cfg.ignore_import_version_numbers then setAdd (setAdd st.satisfied p) (pyStrip p)
      else setAdd st.satisfied p
  let base := match base? with
    | some b => b
    | none => get_safe_rebase_addr cfg.rebase_granularity (st.all_objects ++ [obj])
  { st with
    unsatisfied := unsat
    requested := req
    satisfied := sat
    all_objects := st.all_objects ++ [{ obj with rebase_addr := base }]
    backers := if obj.isIda then st.backers else st.backers ++ [(base, obj.memOffsets)] }

/-! ## Dependency loading -/

/-- Everything `_load_dependencies` obtains from outside the loader state:
`_resolve_path` composed with the filesystem, the backend parsers
(`load_object`), and the per-library `custom_base_addr` from `lib_opts`
(keyed by the basename of the resolved path). -/
structure LdEnv where
  resolve : String → Option String
  load : String → CleObj
  lib_custom_base : String → Option Nat

/-- Outcome of the dependency loop. -/
inductive LoadResult where
  /-- The queue drained; construction proceeds. -/
  | ok (st : LdState)
  /-- `CLException("Could not find shared library: %s" % dep)` (cle.py:119). -/
  | missingDep (dep : String)
  /-- The fuel bound was hit before the queue drained (the Python loop is
  unbounded; this marks a run that was cut short, never a Python outcome). -/
  | outOfFuel
  deriving Repr, DecidableEq, Inhabited

/-- `Ld._load_dependencies` (cle.py:109).  Pop the queue head; skip it if its
basename, or (under fuzzy matching) its stripped form, is already satisfied;
otherwise resolve it to a path, raising or dropping on failure per
`except_missing_libs`; otherwise parse and `add_object` the image and record
it in `shared_objects` under its `provides`.  The dict entry aliases the
object `add_object` just appended and rebased, hence `getLastD`. -/
def load_dependencies (cfg : LdConfig) (env : LdEnv) : Nat → LdState → LoadResult
  | 0, st => if st.unsatisfied.isEmpty then .ok st else .outOfFuel
  | fuel + 1, st =>
    match st.unsatisfied with
    | [] => .ok st
    | dep :: rest =>
      if basename dep ∈ st.satisfied then
        load_dependencies cfg env fuel { st with unsatisfied := rest }
      else if cfg.ignore_import_version_numbers = true ∧ pyStrip dep ∈ st.satisfied then
        load_dependencies cfg env fuel { st with unsatisfied := rest }
      else
        match env.resolve dep with
        | none =>
          if cfg.except_missing_libs then .missingDep dep
          else load_dependencies cfg env fuel { st with unsatisfied := rest }
        | some path =>
          let obj := env.load path
          let st2 := add_object cfg { st with unsatisfied := rest } obj
            (env.lib_custom_base (basename path))
          load_dependencies cfg env fuel
            { st2 with shared_objects :=
                dictSet st2.shared_objects obj.provides (st2.all_objects.getLastD obj) }

/-- `Ld.__init__` through `_load_dependencies` (cle.py:77-95): seed the queue
with `force_load_libs` and the satisfied set with `skip_libs`, add the main
binary at `main_opts.get('custom_base_addr', 0)`, then drain the queue. -/
def ld_init (cfg : LdConfig) (env : LdEnv) (force_load_libs skip_libs : List String)
    (mainObj : CleObj) (mainBase : Nat) (fuel : Nat) : LoadResult :=
  let st0 : LdState :=
    { unsatisfied := force_load_libs, satisfied := skip_libs, requested := [],
      all_objects := [], shared_objects := [], backers := [] }
  load_dependencies cfg env fuel (add_object cfg st0 mainObj (some mainBase))

/-! ## Path resolution -/

/-- The filesystem operations `_resolve_path` performs, abstracted:
`check_lib` is `Ld._check_lib` (existence plus architecture compatibility via
`arch_from_binary`, an external collaborator), `listdir` is `os.listdir` with
`OSError` already mapped to an empty listing (cle.py:188-189), `realpath` is
`os.path.realpath`. -/
structure FileSys where
  check_lib : String → Bool
  listdir : String → List String
  realpath : String → String

/-- The body of the per-directory loop of `_resolve_path` (cle.py:183-193):
try the direct concatenation first; only if that misses and fuzzy matching is
enabled, enumerate the directory for a version-stripped match. -/
def resolve_dir_probe (fs : FileSys) (ignore : Bool) (name libdir : String) :
    Option String :=
  if fs.check_lib (pjoin libdir name) then some (fs.realpath (pjoin libdir name))
  else if ignore then
    (fs.listdir libdir).findSome? (fun libname =>
      if pyStrip libname = pyStrip name && fs.check_lib (pjoin libdir libname)
      then some (fs.realpath (pjoin libdir libname)) else none)
  else none

/-- `Ld._resolve_path` (cle.py:174): a name containing `/` is an explicit
location accepted as-is iff `_check_lib` holds; a bare name is probed against
`custom_ld_path`, then `.`, then the directory of the main binary, then the
architecture's default library search paths. -/
def resolve_path (fs : FileSys) (ignore : Bool) (custom_ld_path : List String)
    (main_binary_path : String) (arch_paths : List String) (name : String) :
    Option String :=
  if containsSlash name then
    if fs.check_lib name then some name else none
  else
    (custom_ld_path ++ [".", dirname main_binary_path] ++ arch_paths).findSome?
      (fun libdir => resolve_dir_probe fs ignore name libdir)

/-! ## Queries over the composed address space -/

/-- Python `addr - obj.rebase_addr in obj.memory` (cle.py:233): the
subtraction is over unbounded ints and may go negative, in which case it is
not a key of the image-local memory. -/
def memContains (o : CleObj) (x : Int) : Bool :=
  o.memOffsets.any (fun k => decide ((k : Int) = x))

/-- `Ld.addr_belongs_to_object` (cle.py:231): the first object in
`all_objects` whose local memory contains `addr - rebase_addr`, else `None`. -/
def addr_belongs_to_object (objs : List CleObj) (addr : Int) : Option CleObj :=
  objs.find? (fun o => memContains o (addr - (o.rebase_addr : Int)))

/-- `Ld.addr_is_mapped` (cle.py:243). -/
def addr_is_mapped (objs : List CleObj) (addr : Int) : Bool :=
  (addr_belongs_to_object objs addr).isSome

/-- Python exceptions surfacing in the claims. -/
inductive PyErr where
  /-- `AttributeError`: attribute access on a value lacking it. -/
  | attributeError
  /-- `TypeError`: here, `isinstance()` with a non-class second argument. -/
  | typeError
  deriving Repr, DecidableEq

/-- The Python values flowing into the `isinstance` call of
`addr_is_ida_mapped`: a loaded image, `None`, or the `IdaBin` class object
itself. -/
inductive PyVal where
  | pyObj (o : CleObj)
  | pyNone
  | pyIdaBinClass
  deriving Repr, DecidableEq

/-- Python `isinstance(x, classinfo)`: tests the class of `x` when
`classinfo` is a class; when `classinfo` is an ordinary object or `None`,
CPython raises `TypeError: isinstance() arg 2 must be a class, type, ...`. -/
def pyIsinstance : PyVal → PyVal → Except PyErr Bool
  | .pyObj o, .pyIdaBinClass => .ok o.isIda
  | .pyNone, .pyIdaBinClass => .ok false
  | .pyIdaBinClass, .pyIdaBinClass => .ok false
  | _, .pyObj _ => .error .typeError
  | _, .pyNone => .error .typeError

/-- The optional result of `addr_belongs_to_object` as the Python value
passed to `isinstance`. -/
def optToPyVal : Option CleObj → PyVal
  | some o => .pyObj o
  | none => .pyNone

/-- `Ld.addr_is_ida_mapped` (cle.py:238), literally:
`isinstance(IdaBin, self.addr_belongs_to_object(addr))` — the class is the
FIRST argument and the looked-up object (or `None`) the second. -/
def addr_is_ida_mapped (objs : List CleObj) (addr : Int) : Except PyErr Bool :=
  pyIsinstance .pyIdaBinClass (optToPyVal (addr_belongs_to_object objs addr))

/-- Modelled from the spec (§9, open questions): the intended semantics of
`addr_is_ida_mapped` — the image owning the address is of external-tool kind. -/
def addr_is_ida_mapped_intended (objs : List CleObj) (addr : Int) : Bool :=
  match addr_belongs_to_object objs addr with
  | some o => o.isIda
  | none => false

/-! ## Relocation engine -/

/-- Attribute access `i.exports` inside `_all_so_exports` (cle.py:441-445):
`for i in self.shared_objects:` iterates the DICT ITSELF, which in Python
yields its keys — the `provides` values, of type `str` (or `None`) — and
neither `str` nor `NoneType` has an `exports` attribute, so the access raises
`AttributeError` on every iteration. -/
def keyExports : Option String → Except PyErr (List (String × Nat))
  | _ => .error .attributeError

/-- `Ld._all_so_exports` (cle.py:439): fold the shared objects dict into one
exports dict, each binding overwriting any earlier binding of the same
symbol.  The iteration variable ranges over the dict's keys (see
`keyExports`). -/
def all_so_exports (shared : List (Option String × CleObj)) :
    Except PyErr (List (String × Nat)) :=
  shared.foldlM
    (fun acc i => do
      let ex ← keyExports i.1
      pure (ex.foldl (fun m p => dictSet m p.1 p.2) acc))
    []

/-- The evidently intended iteration of `_all_so_exports`, over the dict's
VALUES (`self.shared_objects.values()`): kept for comparison with the claim;
later objects still overwrite earlier exports of the same symbol. -/
def all_so_exports_values (shared : List (Option String × CleObj)) :
    List (String × Nat) :=
  shared.foldl (fun acc i => i.2.exports.foldl (fun m p => dictSet m p.1 p.2) acc) []

/-- `Ld._resolve_imports_ida` (cle.py:458): for each import of the
external-tool-backed image `b`, prefer `b`'s own export of the name, then the
merged shared-object exports; unresolved names are skipped with a warning.
The result is the sequence of slot rewrites `b.update_addrs([ea], newaddr)`
would perform, as (slot, new address) pairs. -/
def resolve_imports_ida (shared : List (Option String × CleObj)) (b : CleObj) :
    Except PyErr (List (Nat × Nat)) := do
  let so_exports ← all_so_exports shared
  pure (b.imports.foldl
    (fun acc p =>
      match dictGet b.exports p.1 with
      | some newaddr => acc ++ [(p.2, newaddr)]
      | none =>
        match dictGet so_exports p.1 with
        | some newaddr => acc ++ [(p.2, newaddr)]
        | none => acc)
    [])

/-- The `tls_module_id` assignment of `Ld._perform_reloc` (cle.py:195-197):
`obj.tls_module_id = i` for the `i`-th object of `all_objects`.  The per-kind
relocation dispatch that follows in the same loop (backend code:
`reloc.relocate`, `_resolve_imports_ida`, or nothing for PE) neither touches
`tls_module_id` nor reorders `all_objects`, so the id assignment factors out. -/
def perform_reloc_tls (objs : List CleObj) : List CleObj :=
  objs.enum.map (fun p => { p.2 with tls_module_id := p.1 })

/-- Modelled from the spec's words for comparison with `pyStrip` (claim C2):
removal of ONLY the trailing run of characters from `{., 0..9}`, leaving the
rest of the name unchanged. -/
def stripTrailingOnly (s : String) : String := ⟨dropTrail s.data⟩

/-! ## Lemmas: dropWhile and the fuzzy stripper -/

theorem dropWhile_idem (p : Char → Bool) (l : List Char) :
    (l.dropWhile p).dropWhile p = l.dropWhile p := by
  induction l with
  | nil => rfl
  | cons a t ih =>
    rw [List.dropWhile_cons]
    by_cases h : p a = true
    · simp only [h, if_true]
      exact ih
    · simp only [h, if_false, List.dropWhile_cons]
      simp [h]

theorem dropWhile_head_false (p : Char → Bool) :
    ∀ (l : List Char) (a : Char) (as : List Char),
      l.dropWhile p = a :: as → p a = false := by
  intro l
  induction l with
  | nil => intro a as h; simp at h
  | cons b t ih =>
    intro a as h
    rw [List.dropWhile_cons] at h
    by_cases hb : p b = true
    · rw [if_pos hb] at h
      exact ih a as h
    · rw [if_neg hb] at h
      cases h
      simpa using hb

theorem dropWhile_eq_self_of (p : Char → Bool) (l : List Char)
    (h : ∀ (a : Char) (as : List Char), l = a :: as → p a = false) :
    l.dropWhile p = l := by
  cases l with
  | nil => rfl
  | cons a t => rw [List.dropWhile_cons, h a t rfl]; simp

theorem dropWhile_exists_drop (p : Char → Bool) (l : List Char) :
    ∃ n, l.dropWhile p = l.drop n := by
  induction l with
  | nil => exact ⟨0, rfl⟩
  | cons a t ih =>
    by_cases h : p a = true
    · obtain ⟨n, hn⟩ := ih
      exact ⟨n + 1, by rw [List.dropWhile_cons, if_pos h, List.drop_succ_cons]; exact hn⟩
    · exact ⟨0, by rw [List.dropWhile_cons, if_neg h]; rfl⟩

theorem getLast?_drop_of_ne_nil :
    ∀ (n : Nat) (l : List Char), l.drop n ≠ [] → (l.drop n).getLast? = l.getLast? := by
  intro n
  induction n with
  | zero => intro l _; rfl
  | succ m ih =>
    intro l h
    cases l with
    | nil => simp at h
    | cons a t =>
      rw [List.drop_succ_cons] at h ⊢
      rw [ih t h]
      cases t with
      | nil => simp at h
      | cons b u => exact List.getLast?_cons_cons.symm

theorem dropWhile_append_of_all (p : Char → Bool) :
    ∀ (u v : List Char), (∀ c ∈ u, p c = true) →
      (u ++ v).dropWhile p = v.dropWhile p := by
  intro u
  induction u with
  | nil => intro v _; rfl
  | cons a t ih =>
    intro v h
    rw [List.cons_append, List.dropWhile_cons, if_pos (h a (List.mem_cons_self a t))]
    exact ih v (fun c hc => h c (List.mem_cons_of_mem a hc))

theorem pyStrip_idem (s : String) : pyStrip (pyStrip s) = pyStrip s := by
  have key : dropTrail ((dropTrail s.data).dropWhile isStripChar) =
      (dropTrail s.data).dropWhile isStripChar := by
    have hself : ((dropTrail s.data).dropWhile isStripChar).reverse.dropWhile isStripChar =
        ((dropTrail s.data).dropWhile isStripChar).reverse := by
      apply dropWhile_eq_self_of
      intro a as h
      obtain ⟨n, hn⟩ := dropWhile_exists_drop isStripChar (dropTrail s.data)
      have hne : (dropTrail s.data).dropWhile isStripChar ≠ [] := by
        intro hnil
        rw [hnil] at h
        simp at h
      have hlast : ((dropTrail s.data).dropWhile isStripChar).getLast? = some a := by
        rw [← List.head?_reverse, h]
        rfl
      rw [hn] at hlast hne
      rw [getLast?_drop_of_ne_nil n (dropTrail s.data) hne] at hlast
      unfold dropTrail at hlast
      rw [List.getLast?_reverse] at hlast
      cases hd : s.data.reverse.dropWhile isStripChar with
      | nil => rw [hd] at hlast; simp at hlast
      | cons b bs =>
        rw [hd] at hlast
        simp only [List.head?_cons, Option.some.injEq] at hlast
        rw [← hlast]
        exact dropWhile_head_false isStripChar s.data.reverse b bs hd
    show (((dropTrail s.data).dropWhile isStripChar).reverse.dropWhile isStripChar).reverse =
      (dropTrail s.data).dropWhile isStripChar
    rw [hself, List.reverse_reverse]
  show (⟨(dropTrail ((dropTrail s.data).dropWhile isStripChar)).dropWhile isStripChar⟩ : String) =
    (⟨(dropTrail s.data).dropWhile isStripChar⟩ : String)
  rw [key, dropWhile_idem]

theorem pyStrip_append_trailing (base t : List Char)
    (ht : ∀ c ∈ t, isStripChar c = true) :
    pyStrip ⟨base ++ t⟩ = pyStrip ⟨base⟩ := by
  have hdt : dropTrail (base ++ t) = dropTrail base := by
    unfold dropTrail
    rw [List.reverse_append]
    congr 1
    apply dropWhile_append_of_all
    intro c hc
    exact ht c (List.mem_reverse.mp hc)
  show (⟨(dropTrail (base ++ t)).dropWhile isStripChar⟩ : String) =
    (⟨(dropTrail base).dropWhile isStripChar⟩ : String)
  rw [hdt]

/-! ## Claim C2 -/

/-- C2 counterexample: `'7z.so.1'.strip('.0123456789')` also removes the
LEADING `7`, yielding `z.so`, while a function that removes only the
trailing run would yield `7z.so`; so the claim's "removes only a trailing
run, leaving the rest of the name unchanged" is false of the code. -/
theorem C2_counterexample :
    pyStrip "7z.so.1" = "z.so" ∧ stripTrailingOnly "7z.so.1" = "7z.so" ∧
      pyStrip "7z.so.1" ≠ stripTrailingOnly "7z.so.1" := by
  refine ⟨by decide, by decide, by decide⟩

/-- C2 (amended): the fuzzy name-stripping is a pure function of the string
that removes the trailing run AND the leading run of characters from the set
`{., 0..9}` (Python `str.strip` strips both ends); it is idempotent, and any
two names that differ only in a trailing run of such characters strip to the
same result. -/
theorem C2_strip_both_ends_pure (base t1 t2 : List Char)
    (h1 : ∀ c ∈ t1, isStripChar c = true) (h2 : ∀ c ∈ t2, isStripChar c = true) :
    pyStrip ⟨base ++ t1⟩ = pyStrip ⟨base ++ t2⟩ ∧
      ∀ s : String, pyStrip (pyStrip s) = pyStrip s :=
  ⟨(pyStrip_append_trailing base t1 h1).trans (pyStrip_append_trailing base t2 h2).symm,
   pyStrip_idem⟩

/-- C2 witness: `libc.so.6` and `libc.so.0` strip to the same name. -/
theorem C2_strip_both_ends_pure_witness :
    pyStrip (⟨"libc.so".data ++ ".6".data⟩ : String) =
      pyStrip (⟨"libc.so".data ++ ".0".data⟩ : String) :=
  (C2_strip_both_ends_pure "libc.so".data ".6".data ".0".data (by decide) (by decide)).1

/-! ## Claim C9 -/

/-- C9 (code_bug): `addr_is_ida_mapped` never returns a boolean at all: for
every loader state and every address it raises `TypeError`, because
cle.py:241 passes the class `IdaBin` as the FIRST argument of `isinstance`
and the looked-up image (or `None`) as the second, and `isinstance` requires
a class there.  The claim's iff is the intended semantics
(`addr_is_ida_mapped_intended`), not what the code computes. -/
theorem C9_addr_is_ida_mapped_type_error (objs : List CleObj) (addr : Int) :
    addr_is_ida_mapped objs addr = .error .typeError ∧
      (addr_is_ida_mapped_intended objs addr = true ↔
        ∃ o, addr_belongs_to_object objs addr = some o ∧ o.isIda = true) := by
  constructor
  · unfold addr_is_ida_mapped
    cases addr_belongs_to_object objs addr <;> rfl
  · unfold addr_is_ida_mapped_intended
    cases ho : addr_belongs_to_object objs addr with
    | none => simp
    | some o => simp

/-! ## Claim C1 -/

/-- A shared library exporting `printf` at local address 64, loaded alongside
an external-tool-backed main image (claim C1 failing input). -/
def objLibA : CleObj :=
  { binary := "/usr/lib/libA.so", provides := some "libA.so", deps := [],
    memOffsets := [0], exports := [("printf", 64)], imports := [],
    minOffset := 0, maxOffset := 4095, isIda := false }

/-- A second shared library also exporting `printf`, at local address 128. -/
def objLibB : CleObj :=
  { binary := "/usr/lib/libB.so", provides := some "libB.so", deps := [],
    memOffsets := [0], exports := [("printf", 128)], imports := [],
    minOffset := 0, maxOffset := 4095, isIda := false }

/-- An external-tool-backed main image importing `printf` through a slot at
local address 4096 (claim C1 failing input). -/
def objIdaMain : CleObj :=
  { binary := "/bin/prog", provides := none, deps := ["libA.so"],
    memOffsets := [0], exports := [], imports := [("printf", 4096)],
    minOffset := 0, maxOffset := 8191, isIda := true }

/-- C1 (code_bug): at the failing input — an external-tool-backed main image
importing `printf` with one loaded shared library exporting it — the
resolution path `_resolve_imports_ida` raises `AttributeError` instead of
selecting any image, because `_all_so_exports` iterates the
`shared_objects` dict itself (its keys, which are strings) and reads
`.exports` off a string.  The claim's selection rule never executes. -/
theorem C1_resolve_imports_attribute_error :
    resolve_imports_ida [(some "libA.so", objLibA)] objIdaMain =
      .error .attributeError := rfl

/-- Even under the evidently intended values-iteration of `_all_so_exports`
(`self.shared_objects.values()`), the merged dict binds each symbol to the
LAST iterated image's export, not the first: with `libA` (exporting `printf`
at 64) iterated before `libB` (exporting it at 128), lookup yields `libB`'s
address — so the claim's "first image in load order wins" also contradicts
the dict-overwrite merge itself. -/
theorem all_so_exports_values_last_wins :
    dictGet (all_so_exports_values
        [(some "libA.so", objLibA), (some "libB.so", objLibB)]) "printf" =
      some 128 ∧
    dictGet objLibA.exports "printf" = some 64 := ⟨rfl, rfl⟩

/-- The self-shadowing branch of `_resolve_imports_ida` (cle.py:467) is
reachable only while `shared_objects` is empty; there an import exported by
the image itself does resolve to the image's own export. -/
theorem resolve_imports_ida_self_export :
    resolve_imports_ida [] { objIdaMain with exports := [("printf", 100)] } =
      .ok [(4096, 100)] := rfl

/-! ## Claim C10 -/

theorem find?_first_split {α : Type} (p : α → Bool) :
    ∀ (l : List α) (x : α), l.find? p = some x →
      p x = true ∧ ∃ l1 l2, l = l1 ++ x :: l2 ∧ ∀ y ∈ l1, p y = false := by
  intro l
  induction l with
  | nil => intro x h; simp at h
  | cons a t ih =>
    intro x h
    by_cases ha : p a = true
    · rw [List.find?_cons_of_pos _ ha] at h
      cases h
      exact ⟨ha, [], t, rfl, by intro y hy; simp at hy⟩
    · rw [List.find?_cons_of_neg _ (by simpa using ha)] at h
      obtain ⟨hx, l1, l2, hsplit, hfirst⟩ := ih x h
      refine ⟨hx, a :: l1, l2, by rw [hsplit]; rfl, ?_⟩
      intro y hy
      rcases List.mem_cons.mp hy with hy | hy
      · rw [hy]; simpa using ha
      · exact hfirst y hy

/-- C10 (confirmed): `addr_belongs_to_object` returns the first image in load
order whose local memory contains `addr - rebase_addr` and `None` when no
image does; in particular an earlier-loaded image shadows any later one
containing the same address, and `addr_is_mapped` holds exactly when some
loaded image contains the address. -/
theorem C10_addr_lookup_first_match (objs : List CleObj) (addr : Int) :
    (addr_is_mapped objs addr = true ↔
        ∃ o ∈ objs, memContains o (addr - (o.rebase_addr : Int)) = true)
    ∧ (addr_belongs_to_object objs addr = none ↔
        ∀ o ∈ objs, memContains o (addr - (o.rebase_addr : Int)) = false)
    ∧ ∀ o, addr_belongs_to_object objs addr = some o →
        memContains o (addr - (o.rebase_addr : Int)) = true ∧
          ∃ l1 l2, objs = l1 ++ o :: l2 ∧
            ∀ o' ∈ l1, memContains o' (addr - (o'.rebase_addr : Int)) = false := by
  refine ⟨?_, ?_, ?_⟩
  · unfold addr_is_mapped addr_belongs_to_object
    rw [List.find?_isSome]
  · unfold addr_belongs_to_object
    rw [List.find?_eq_none]
    constructor
    · intro h o ho
      have := h o ho
      simpa using this
    · intro h o ho
      simp [h o ho]
  · intro o ho
    obtain ⟨hp, l1, l2, hsplit, hfirst⟩ :=
      find?_first_split (fun o => memContains o (addr - (o.rebase_addr : Int))) objs o ho
    exact ⟨hp, l1, l2, hsplit, hfirst⟩

/-- C10 witness: a one-image space where the image at rebase 0 contains
offset 0. -/
theorem C10_addr_lookup_first_match_witness :
    (addr_is_mapped [objLibA] 0 = true ↔
        ∃ o ∈ [objLibA], memContains o (0 - (o.rebase_addr : Int)) = true)
    ∧ (addr_belongs_to_object [objLibA] 0 = none ↔
        ∀ o ∈ [objLibA], memContains o (0 - (o.rebase_addr : Int)) = false)
    ∧ ∀ o, addr_belongs_to_object [objLibA] 0 = some o →
        memContains o (0 - (o.rebase_addr : Int)) = true ∧
          ∃ l1 l2, [objLibA] = l1 ++ o :: l2 ∧
            ∀ o' ∈ l1, memContains o' (0 - (o'.rebase_addr : Int)) = false :=
  C10_addr_lookup_first_match [objLibA] 0

/-! ## Claim C6 -/

/-- C6 (confirmed): for a bare dependency name (no path separator) the
resolver probes exactly `custom_ld_path`, then `.`, then the directory of the
main binary, then the architecture's default library paths, in that order,
returning the first directory's hit; and within any directory, a direct
concatenation that exists and is architecture-compatible is returned before
any fuzzy enumeration of the directory is consulted. -/
theorem C6_resolve_path_probe_order (fs : FileSys) (ignore : Bool)
    (custom_ld_path : List String) (main_binary_path : String)
    (arch_paths : List String) (name : String)
    (h : containsSlash name = false) :
    resolve_path fs ignore custom_ld_path main_binary_path arch_paths name =
      (custom_ld_path ++ "." :: dirname main_binary_path :: arch_paths).findSome?
        (fun libdir => resolve_dir_probe fs ignore name libdir)
    ∧ ∀ libdir, fs.check_lib (pjoin libdir name) = true →
        resolve_dir_probe fs ignore name libdir =
          some (fs.realpath (pjoin libdir name)) := by
  constructor
  · unfold resolve_path
    rw [h]
    simp
  · intro libdir hc
    unfold resolve_dir_probe
    rw [hc]
    simp

/-- C6 witness: a filesystem with the library present both directly in the
second custom directory and fuzzily in the first; the probe order and the
direct-before-fuzzy rule are exercised at `libz.so.1`. -/
theorem C6_resolve_path_probe_order_witness :
    (resolve_path
        { check_lib := fun p => p = "/opt/b/libz.so.1",
          listdir := fun _ => ["libz.so.9"], realpath := fun p => p }
        true ["/opt/a", "/opt/b"] "/bin/prog" ["/usr/lib"] "libz.so.1" =
      (["/opt/a", "/opt/b"] ++ "." :: dirname "/bin/prog" :: ["/usr/lib"]).findSome?
        (fun libdir => resolve_dir_probe
          { check_lib := fun p => p = "/opt/b/libz.so.1",
            listdir := fun _ => ["libz.so.9"], realpath := fun p => p }
          true "libz.so.1" libdir))
    ∧ ∀ libdir,
        ({ check_lib := fun p => p = "/opt/b/libz.so.1",
           listdir := fun _ => ["libz.so.9"], realpath := fun p => p } :
            FileSys).check_lib (pjoin libdir "libz.so.1") = true →
          resolve_dir_probe
              { check_lib := fun p => p = "/opt/b/libz.so.1",
                listdir := fun _ => ["libz.so.9"], realpath := fun p => p }
              true "libz.so.1" libdir =
            some (pjoin libdir "libz.so.1") :=
  C6_resolve_path_probe_order
    { check_lib := fun p => p = "/opt/b/libz.so.1",
      listdir := fun _ => ["libz.so.9"], realpath := fun p => p }
    true ["/opt/a", "/opt/b"] "/bin/prog" ["/usr/lib"] "libz.so.1" (by decide)

/-! ## Claim C8 -/

/-- A fresh loader state with nothing loaded. -/
def stEmpty : LdState :=
  { unsatisfied := [], satisfied := [], requested := [], all_objects := [],
    shared_objects := [], backers := [] }

/-- An external-tool-backed library image (claim C8 counterexample input). -/
def objIdaLib : CleObj :=
  { binary := "/opt/idalib.so", provides := some "idalib.so", deps := [],
    memOffsets := [0, 1, 2], exports := [], imports := [],
    minOffset := 0, maxOffset := 2, isIda := true }

/-- C8 counterexample: adding an external-tool-backed image at base 4096
registers NO backer — `add_object` returns right after `obj.rebase(base)`
(cle.py:167-169), before the `add_backer` call — contradicting the claim's
"any backend kind". -/
theorem C8_counterexample :
    ¬ (4096, objIdaLib.memOffsets) ∈
      (add_object {} stEmpty objIdaLib (some 4096)).backers := by
  intro hmem
  have hb : (add_object {} stEmpty objIdaLib (some 4096)).backers = [] := rfl
  rw [hb] at hmem
  simp at hmem

/-- C8 (amended): for every image accepted by `add_object` that is NOT
external-tool-backed, the pair (chosen base, image local memory) is
registered as a backer and the chosen base is stored as the image's
`rebase_addr`; for an external-tool-backed image the base is still stored on
the image (via the image's own `rebase`) but no backer is registered by
`add_object`. -/
theorem C8_add_object_backer (cfg : LdConfig) (st : LdState) (obj : CleObj)
    (base? : Option Nat) :
    ∃ base,
      (∀ b, base? = some b → base = b) ∧
      (base? = none →
        base = get_safe_rebase_addr cfg.rebase_granularity (st.all_objects ++ [obj])) ∧
      (add_object cfg st obj base?).all_objects =
        st.all_objects ++ [{ obj with rebase_addr := base }] ∧
      (obj.isIda = false →
        (add_object cfg st obj base?).backers = st.backers ++ [(base, obj.memOffsets)]) ∧
      (obj.isIda = true → (add_object cfg st obj base?).backers = st.backers) := by
  cases base? with
  | some b =>
    refine ⟨b, ?_, ?_, ?_, ?_, ?_⟩
    · intro b' hb'
      exact Option.some.inj hb'
    · intro hn
      exact absurd hn (by simp)
    · rfl
    · intro hni
      show (if obj.isIda = true then st.backers
        else st.backers ++ [(b, obj.memOffsets)]) = _
      rw [hni]
      simp
    · intro hi
      show (if obj.isIda = true then st.backers
        else st.backers ++ [(b, obj.memOffsets)]) = _
      rw [hi]
      simp
  | none =>
    refine ⟨get_safe_rebase_addr cfg.rebase_granularity (st.all_objects ++ [obj]),
      ?_, ?_, ?_, ?_, ?_⟩
    · intro b' hb'
      exact absurd hb' (by simp)
    · intro _
      rfl
    · rfl
    · intro hni
      show (if obj.isIda = true then st.backers
        else st.backers ++
          [(get_safe_rebase_addr cfg.rebase_granularity (st.all_objects ++ [obj]),
            obj.memOffsets)]) = _
      rw [hni]
      simp
    · intro hi
      show (if obj.isIda = true then st.backers
        else st.backers ++
          [(get_safe_rebase_addr cfg.rebase_granularity (st.all_objects ++ [obj]),
            obj.memOffsets)]) = _
      rw [hi]
      simp

/-- C8 witness: a non-external image added at an explicit base. -/
theorem C8_add_object_backer_witness :
    ∃ base,
      (∀ b, (some 8192 : Option Nat) = some b → base = b) ∧
      ((some 8192 : Option Nat) = none →
        base = get_safe_rebase_addr ({} : LdConfig).rebase_granularity
          (stEmpty.all_objects ++ [objLibA])) ∧
      (add_object {} stEmpty objLibA (some 8192)).all_objects =
        stEmpty.all_objects ++ [{ objLibA with rebase_addr := base }] ∧
      (objLibA.isIda = false →
        (add_object {} stEmpty objLibA (some 8192)).backers =
          stEmpty.backers ++ [(base, objLibA.memOffsets)]) ∧
      (objLibA.isIda = true →
        (add_object {} stEmpty objLibA (some 8192)).backers = stEmpty.backers) :=
  C8_add_object_backer {} stEmpty objLibA (some 8192)

/-! ## Claim C7 -/

theorem load_dependencies_objects_extend (cfg : LdConfig) (env : LdEnv) :
    ∀ (fuel : Nat) (st st' : LdState),
      load_dependencies cfg env fuel st = .ok st' →
      ∃ tail, st'.all_objects = st.all_objects ++ tail := by
  intro fuel
  induction fuel with
  | zero =>
    intro st st' h
    simp only [load_dependencies] at h
    by_cases he : st.unsatisfied.isEmpty
    · rw [if_pos he] at h
      cases h
      exact ⟨[], by simp⟩
    · rw [if_neg he] at h
      simp at h
  | succ f ih =>
    intro st st' h
    rcases hq : st.unsatisfied with _ | ⟨dep, rest⟩
    · simp only [load_dependencies, hq] at h
      cases h
      exact ⟨[], by simp⟩
    · simp only [load_dependencies, hq] at h
      by_cases h1 : basename dep ∈ st.satisfied
      · rw [if_pos h1] at h
        obtain ⟨tail, ht⟩ := ih _ _ h
        exact ⟨tail, ht⟩
      · rw [if_neg h1] at h
        by_cases h2 : cfg.ignore_import_version_numbers = true ∧ pyStrip dep ∈ st.satisfied
        · rw [if_pos h2] at h
          obtain ⟨tail, ht⟩ := ih _ _ h
          exact ⟨tail, ht⟩
        · rw [if_neg h2] at h
          cases hr : env.resolve dep with
          | none =>
            simp only [hr] at h
            by_cases h3 : cfg.except_missing_libs = true
            · rw [if_pos h3] at h
              simp at h
            · rw [if_neg h3] at h
              obtain ⟨tail, ht⟩ := ih _ _ h
              exact ⟨tail, ht⟩
          | some path =>
            simp only [hr] at h
            obtain ⟨tail, ht⟩ := ih _ _ h
            exact ⟨_, by rw [ht]; exact List.append_assoc st.all_objects _ tail⟩

theorem perform_reloc_tls_map_tls (objs : List CleObj) :
    (perform_reloc_tls objs).map (fun o => o.tls_module_id) =
      List.range objs.length := by
  unfold perform_reloc_tls
  rw [List.map_map]
  have hcomp : ((fun o : CleObj => o.tls_module_id) ∘
      fun p : Nat × CleObj => { p.2 with tls_module_id := p.1 }) = Prod.fst := rfl
  rw [hcomp]
  exact List.enum_map_fst objs

/-- C7 (confirmed): after a successful construction, `_perform_reloc`
assigns `tls_module_id` values that are exactly `0, 1, ..., n-1` in load
order over the `n` loaded images, and the head of `all_objects` — the main
image, appended first — receives 0. -/
theorem C7_tls_module_ids (cfg : LdConfig) (env : LdEnv)
    (force_load_libs skip_libs : List String) (mainObj : CleObj) (mainBase : Nat)
    (fuel : Nat) (st : LdState)
    (h : ld_init cfg env force_load_libs skip_libs mainObj mainBase fuel = .ok st) :
    (perform_reloc_tls st.all_objects).map (fun o => o.tls_module_id) =
      List.range st.all_objects.length
    ∧ (perform_reloc_tls st.all_objects).head?.map
        (fun o => (o.binary, o.tls_module_id)) = some (mainObj.binary, 0) := by
  refine ⟨perform_reloc_tls_map_tls st.all_objects, ?_⟩
  unfold ld_init at h
  obtain ⟨tail, ht⟩ := load_dependencies_objects_extend cfg env fuel _ st h
  have hmain : st.all_objects = { mainObj with rebase_addr := mainBase } :: tail := by
    rw [ht]
    rfl
  rw [hmain]
  rfl

/-- An environment resolving exactly `libA.so` (used by witnesses). -/
def envLibA : LdEnv :=
  { resolve := fun n => if n = "libA.so" then some "/usr/lib/libA.so" else none,
    load := fun _ => objLibA,
    lib_custom_base := fun _ => none }

/-- C7 witness: a run loading one library after the main binary. -/
theorem C7_tls_module_ids_witness :
    ∃ st,
      ld_init {} envLibA [] [] objIdaMain 0 4 = .ok st ∧
      ((perform_reloc_tls st.all_objects).map (fun o => o.tls_module_id) =
        List.range st.all_objects.length
      ∧ (perform_reloc_tls st.all_objects).head?.map
          (fun o => (o.binary, o.tls_module_id)) = some (objIdaMain.binary, 0)) := by
  refine ⟨_, rfl, ?_⟩
  exact C7_tls_module_ids {} envLibA [] [] objIdaMain 0 4 _ rfl

/-! ## Claim C3 -/

/-- Ordered disjointness of occupied ranges: the earlier image's range
`[rebase + min_offset, rebase + max_offset]` ends strictly below the later
image's start. -/
def objBelow (a b : CleObj) : Prop :=
  a.rebase_addr + a.maxOffset < b.rebase_addr + b.minOffset

theorem max_addr_cons (a : CleObj) (t : List CleObj) :
    max_addr (a :: t) = Nat.max (a.maxOffset + a.rebase_addr) (max_addr t) := rfl

theorem le_max_addr (objs : List CleObj) :
    ∀ o ∈ objs, o.maxOffset + o.rebase_addr ≤ max_addr objs := by
  induction objs with
  | nil => intro o ho; simp at ho
  | cons a t ih =>
    intro o ho
    rw [max_addr_cons]
    rcases List.mem_cons.mp ho with rfl | ho
    · exact Nat.le_max_left _ _
    · exact Nat.le_trans (ih o ho) (Nat.le_max_right _ _)

theorem safe_rebase_gt (g : Nat) (hg : 0 < g) (objs : List CleObj) :
    max_addr objs < get_safe_rebase_addr g objs := by
  unfold get_safe_rebase_addr
  have h1 : max_addr objs % g < g := Nat.mod_lt _ hg
  omega

theorem safe_rebase_dvd (g : Nat) (hg : 0 < g) (objs : List CleObj) :
    g ∣ get_safe_rebase_addr g objs := by
  unfold get_safe_rebase_addr
  have h1 : max_addr objs % g ≤ max_addr objs := Nat.mod_le _ _
  have h2 : max_addr objs % g < g := Nat.mod_lt _ hg
  have h3 := Nat.div_add_mod (max_addr objs) g
  have h4 : max_addr objs + (g - max_addr objs % g) = g * (max_addr objs / g) + g := by
    omega
  rw [h4]
  exact ⟨max_addr objs / g + 1, by ring⟩

/-- Adding a list of images through `add_object` with no caller-supplied
base, in order (the shape of every dependency add when no `lib_opts` entry
carries a `custom_base_addr`). -/
def add_objects_auto (cfg : LdConfig) (st : LdState) (objs : List CleObj) : LdState :=
  objs.foldl (fun s o => add_object cfg s o none) st

theorem add_object_auto_pairwise (cfg : LdConfig)
    (hg : 0 < cfg.rebase_granularity) (st : LdState) (obj : CleObj)
    (hpw : st.all_objects.Pairwise objBelow) :
    (add_object cfg st obj none).all_objects.Pairwise objBelow := by
  have hobjs : (add_object cfg st obj none).all_objects =
      st.all_objects ++
        [withRebase obj
          (get_safe_rebase_addr cfg.rebase_granularity (st.all_objects ++ [obj]))] := rfl
  rw [hobjs, List.pairwise_append]
  refine ⟨hpw, by simp, ?_⟩
  intro a ha b hb
  rw [List.mem_singleton] at hb
  subst hb
  show a.rebase_addr + a.maxOffset <
    get_safe_rebase_addr cfg.rebase_granularity (st.all_objects ++ [obj]) + obj.minOffset
  have h1 : a.maxOffset + a.rebase_addr ≤ max_addr (st.all_objects ++ [obj]) :=
    le_max_addr _ a (List.mem_append_left _ ha)
  have h2 := safe_rebase_gt cfg.rebase_granularity hg (st.all_objects ++ [obj])
  omega

theorem add_objects_auto_pairwise (cfg : LdConfig)
    (hg : 0 < cfg.rebase_granularity) :
    ∀ (objs : List CleObj) (st : LdState),
      st.all_objects.Pairwise objBelow →
      (add_objects_auto cfg st objs).all_objects.Pairwise objBelow := by
  intro objs
  induction objs with
  | nil => intro st h; exact h
  | cons o t ih =>
    intro st h
    exact ih _ (add_object_auto_pairwise cfg hg st o h)

/-- C3 (confirmed): an image added with no caller-supplied base gets
`max_addr + (G - max_addr % G)` where `max_addr` is the loader's maximum
absolute address at the moment of the computation (the source appends the
image, at its initial rebase 0, before computing); that base is divisible by
`G` and strictly greater than every previously added image's maximum
absolute address, and a run of such adds keeps the occupied ranges of
distinct images pairwise disjoint (each earlier range ends strictly below
each later one). -/
theorem C3_safe_rebase_aligned_disjoint (cfg : LdConfig) (st : LdState)
    (obj : CleObj) (objs : List CleObj)
    (hg : 0 < cfg.rebase_granularity)
    (hpw : st.all_objects.Pairwise objBelow) :
    ((add_object cfg st obj none).all_objects =
      st.all_objects ++
        [withRebase obj
          (max_addr (st.all_objects ++ [obj]) +
            (cfg.rebase_granularity -
              max_addr (st.all_objects ++ [obj]) % cfg.rebase_granularity))])
    ∧ cfg.rebase_granularity ∣
        get_safe_rebase_addr cfg.rebase_granularity (st.all_objects ++ [obj])
    ∧ (∀ o ∈ st.all_objects, o.rebase_addr + o.maxOffset <
        get_safe_rebase_addr cfg.rebase_granularity (st.all_objects ++ [obj]))
    ∧ (add_objects_auto cfg st objs).all_objects.Pairwise objBelow := by
  refine ⟨rfl, safe_rebase_dvd _ hg _, ?_,
    add_objects_auto_pairwise cfg hg objs st hpw⟩
  intro o ho
  have h1 : o.maxOffset + o.rebase_addr ≤ max_addr (st.all_objects ++ [obj]) :=
    le_max_addr _ o (List.mem_append_left _ ho)
  have h2 := safe_rebase_gt cfg.rebase_granularity hg (st.all_objects ++ [obj])
  omega

/-- A loader state holding one image at base 0 (like a main binary). -/
def stOne : LdState :=
  { unsatisfied := [], satisfied := [], requested := [],
    all_objects := [objLibA], shared_objects := [],
    backers := [(0, objLibA.memOffsets)] }

/-- C3 witness: one auto-rebased add over a single loaded image, and a run
of two further auto-rebased adds, at the default granularity. -/
theorem C3_safe_rebase_aligned_disjoint_witness :
    ((add_object {} stOne objLibB none).all_objects =
      stOne.all_objects ++
        [withRebase objLibB
          (max_addr (stOne.all_objects ++ [objLibB]) +
            (({} : LdConfig).rebase_granularity -
              max_addr (stOne.all_objects ++ [objLibB]) %
                ({} : LdConfig).rebase_granularity))])
    ∧ ({} : LdConfig).rebase_granularity ∣
        get_safe_rebase_addr ({} : LdConfig).rebase_granularity
          (stOne.all_objects ++ [objLibB])
    ∧ (∀ o ∈ stOne.all_objects, o.rebase_addr + o.maxOffset <
        get_safe_rebase_addr ({} : LdConfig).rebase_granularity
          (stOne.all_objects ++ [objLibB]))
    ∧ (add_objects_auto {} stOne [objLibB, objIdaLib]).all_objects.Pairwise objBelow :=
  C3_safe_rebase_aligned_disjoint {} stOne objLibB [objLibB, objIdaLib]
    (by decide)
    (List.Pairwise.cons (fun b hb => absurd hb (List.not_mem_nil b)) List.Pairwise.nil)

/-! ## Lemmas: set and satisfied-set bookkeeping -/

theorem mem_setAdd_self (s : List String) (x : String) : x ∈ setAdd s x := by
  unfold setAdd
  by_cases h : x ∈ s
  · rw [if_pos h]
    exact h
  · rw [if_neg h]
    exact List.mem_append_right s (List.mem_singleton_self x)

theorem mem_setAdd_of_mem (s : List String) (x y : String) (h : y ∈ s) :
    y ∈ setAdd s x := by
  unfold setAdd
  by_cases hx : x ∈ s
  · rw [if_pos hx]
    exact h
  · rw [if_neg hx]
    exact List.mem_append_left _ h

theorem mem_setUnion_of_mem (xs : List String) :
    ∀ (s : List String) (y : String), y ∈ s → y ∈ setUnion s xs := by
  induction xs with
  | nil => intro s y h; exact h
  | cons a t ih =>
    intro s y h
    exact ih (setAdd s a) y (mem_setAdd_of_mem s a y h)

theorem mem_setUnion_right (xs : List String) :
    ∀ (s : List String) (y : String), y ∈ xs → y ∈ setUnion s xs := by
  induction xs with
  | nil => intro s y h; simp at h
  | cons a t ih =>
    intro s y h
    rcases List.mem_cons.mp h with rfl | h
    · exact mem_setUnion_of_mem t (setAdd s y) y (mem_setAdd_self s y)
    · exact ih (setAdd s a) y h

/-- The `requested_objects.update(obj.deps)` of `add_object` runs
unconditionally: every declared dependency of an added image lands in
`requested_objects` whatever `auto_load_libs` and the image's kind are. -/
theorem add_object_requested (cfg : LdConfig) (st : LdState) (obj : CleObj)
    (base? : Option Nat) (d : String) (hd : d ∈ obj.deps) :
    d ∈ (add_object cfg st obj base?).requested := by
  show d ∈ setUnion st.requested obj.deps
  exact mem_setUnion_right obj.deps st.requested d hd

/-! ## Claim C4 -/

/-- C4 (confirmed): when the popped dependency neither dedups nor resolves,
the loop raises the missing-library exception naming that dependency if
`except_missing_libs` holds, and otherwise just continues on the remaining
queue — adding no image, touching no other state; and independently of
`auto_load_libs` or resolution outcomes, `add_object` records every declared
dependency of every added image in `requested_objects`, so a name declared
by a loaded image stays recorded even when its resolution failed. -/
theorem C4_missing_dependency (cfg : LdConfig) (env : LdEnv) (fuel : Nat)
    (st : LdState) (dep : String) (rest : List String)
    (hq : st.unsatisfied = dep :: rest)
    (h1 : ¬ basename dep ∈ st.satisfied)
    (h2 : ¬ (cfg.ignore_import_version_numbers = true ∧ pyStrip dep ∈ st.satisfied))
    (hres : env.resolve dep = none) :
    (cfg.except_missing_libs = true →
      load_dependencies cfg env (fuel + 1) st = .missingDep dep)
    ∧ (cfg.except_missing_libs = false →
      load_dependencies cfg env (fuel + 1) st =
        load_dependencies cfg env fuel { st with unsatisfied := rest })
    ∧ ∀ (st2 : LdState) (obj : CleObj) (base? : Option Nat) (d : String),
        d ∈ obj.deps → d ∈ (add_object cfg st2 obj base?).requested := by
  refine ⟨?_, ?_, ?_⟩
  · intro hex
    simp only [load_dependencies, hq]
    rw [if_neg h1, if_neg h2]
    simp only [hres]
    rw [if_pos hex]
  · intro hex
    simp only [load_dependencies, hq]
    rw [if_neg h1, if_neg h2]
    simp only [hres]
    rw [if_neg (by simp [hex])]
  · intro st2 obj base? d hd
    exact add_object_requested cfg st2 obj base? d hd

/-- An environment that resolves nothing. -/
def envNone : LdEnv :=
  { resolve := fun _ => none, load := fun _ => objLibA,
    lib_custom_base := fun _ => none }

/-- A loader state whose queue holds one unresolvable dependency. -/
def stMystery : LdState := { stEmpty with unsatisfied := ["libmystery.so"] }

/-- C4 witness: popping `libmystery.so` with no resolver hit under the
default configuration raises the missing-library error naming it. -/
theorem C4_missing_dependency_witness :
    (({} : LdConfig).except_missing_libs = true →
      load_dependencies {} envNone 1 stMystery = .missingDep "libmystery.so")
    ∧ (({} : LdConfig).except_missing_libs = false →
      load_dependencies {} envNone 1 stMystery =
        load_dependencies {} envNone 0 { stMystery with unsatisfied := [] })
    ∧ ∀ (st2 : LdState) (obj : CleObj) (base? : Option Nat) (d : String),
        d ∈ obj.deps → d ∈ (add_object {} st2 obj base?).requested :=
  C4_missing_dependency {} envNone 0 stMystery "libmystery.so" []
    rfl (by decide) (by decide) rfl

/-! ## Claim C5 -/

/-- Number of universe names whose basename is not yet satisfied: the
decreasing part of the termination measure for `_load_dependencies`. -/
def unsatCount (U sat : List String) : Nat :=
  U.countP (fun n => decide (¬ basename n ∈ sat))

theorem unsatCount_mono (U : List String) (s s' : List String)
    (h : ∀ x, x ∈ s → x ∈ s') : unsatCount U s' ≤ unsatCount U s := by
  induction U with
  | nil => exact Nat.le_refl 0
  | cons a t ih =>
    unfold unsatCount at ih ⊢
    rw [List.countP_cons, List.countP_cons]
    have hpt : (if decide (¬ basename a ∈ s') = true then 1 else 0) ≤
        (if decide (¬ basename a ∈ s) = true then 1 else 0) := by
      by_cases ha : basename a ∈ s'
      · simp [ha]
      · have hnas : ¬ basename a ∈ s := fun hx => ha (h _ hx)
        simp [ha, hnas]
    omega

theorem unsatCount_lt (U : List String) (s s' : List String) (dep : String)
    (hmem : dep ∈ U) (hno : ¬ basename dep ∈ s) (hyes : basename dep ∈ s')
    (hsub : ∀ x, x ∈ s → x ∈ s') :
    unsatCount U s' < unsatCount U s := by
  induction U with
  | nil => simp at hmem
  | cons a t ih =>
    unfold unsatCount
    rw [List.countP_cons, List.countP_cons]
    rcases List.mem_cons.mp hmem with heq | hmem'
    · subst heq
      have h1 : decide (¬ basename dep ∈ s') = false := by simp [hyes]
      have h2 : decide (¬ basename dep ∈ s) = true := by simp [hno]
      rw [h1, h2]
      have hz : (if (false : Bool) = true then (1 : Nat) else 0) = 0 := rfl
      have ho : (if (true : Bool) = true then (1 : Nat) else 0) = 1 := rfl
      rw [hz, ho]
      have hmono := unsatCount_mono t s s' hsub
      unfold unsatCount at hmono
      omega
    · have hih := ih hmem'
      unfold unsatCount at hih
      have hpt : (if decide (¬ basename a ∈ s') = true then 1 else 0) ≤
          (if decide (¬ basename a ∈ s) = true then 1 else 0) := by
        by_cases ha : basename a ∈ s'
        · simp [ha]
        · have hnas : ¬ basename a ∈ s := fun hx => ha (hsub _ hx)
          simp [ha, hnas]
      omega

/-- Growth of `_satisfied_deps` through `add_object`: old members stay, and
the image's `provides` enters. -/
theorem add_object_satisfied_mem (cfg : LdConfig) (st : LdState) (obj : CleObj)
    (base? : Option Nat) :
    (∀ x, x ∈ st.satisfied → x ∈ (add_object cfg st obj base?).satisfied) ∧
    (∀ p, obj.provides = some p → p ∈ (add_object cfg st obj base?).satisfied) := by
  have hsat : (add_object cfg st obj base?).satisfied =
      (match obj.provides with
        | none => st.satisfied
        | some p =>
          if cfg.ignore_import_version_numbers = true then
            setAdd (setAdd st.satisfied p) (pyStrip p)
          else setAdd st.satisfied p) := rfl
  constructor
  · intro x hx
    rw [hsat]
    cases obj.provides with
    | none => exact hx
    | some p =>
      show x ∈ (if cfg.ignore_import_version_numbers = true then
        setAdd (setAdd st.satisfied p) (pyStrip p) else setAdd st.satisfied p)
      by_cases hig : cfg.ignore_import_version_numbers = true
      · rw [if_pos hig]
        exact mem_setAdd_of_mem _ _ _ (mem_setAdd_of_mem _ _ _ hx)
      · rw [if_neg hig]
        exact mem_setAdd_of_mem _ _ _ hx
  · intro p hp
    rw [hsat]
    simp only [hp]
    by_cases hig : cfg.ignore_import_version_numbers = true
    · rw [if_pos hig]
      exact mem_setAdd_of_mem _ _ _ (mem_setAdd_self _ _)
    · rw [if_neg hig]
      exact mem_setAdd_self _ _

/-- One loading step strictly decreases the weighted termination measure:
the satisfied count drops by at least one while the queue grows by fewer
than `W` names. -/
theorem add_object_measure (cfg : LdConfig) (U : List String) (W : Nat)
    (st1 : LdState) (obj : CleObj) (base? : Option Nat) (dep : String)
    (hprov : obj.provides = some (basename dep))
    (hdepU : dep ∈ U) (h1 : ¬ basename dep ∈ st1.satisfied)
    (hlenW : obj.deps.length < W) :
    W * unsatCount U (add_object cfg st1 obj base?).satisfied +
        (add_object cfg st1 obj base?).unsatisfied.length + 1 ≤
      W * unsatCount U st1.satisfied + st1.unsatisfied.length := by
  have hsub := (add_object_satisfied_mem cfg st1 obj base?).1
  have hbn := (add_object_satisfied_mem cfg st1 obj base?).2 (basename dep) hprov
  have hcnt : unsatCount U (add_object cfg st1 obj base?).satisfied <
      unsatCount U st1.satisfied :=
    unsatCount_lt U st1.satisfied _ dep hdepU h1 hbn hsub
  have hql : (add_object cfg st1 obj base?).unsatisfied.length ≤
      st1.unsatisfied.length + obj.deps.length := by
    show (if cfg.auto_load_libs = true then st1.unsatisfied ++ obj.deps
      else st1.unsatisfied).length ≤ _
    by_cases hauto : cfg.auto_load_libs = true
    · rw [if_pos hauto, List.length_append]
    · rw [if_neg hauto]
      omega
  have hmul : W * unsatCount U (add_object cfg st1 obj base?).satisfied + W ≤
      W * unsatCount U st1.satisfied := by
    have h6 := Nat.mul_le_mul_left W hcnt
    rw [Nat.mul_succ] at h6
    exact h6
  omega

/-- The dependency loop cannot exhaust its fuel when every resolvable name
loads an image that provides that very name, all reachable names live in a
finite universe `U`, no image declares `W` or more dependencies, and the
fuel is at least the weighted measure — in particular it terminates on
cyclic dependency graphs. -/
theorem load_dependencies_not_outOfFuel (cfg : LdConfig) (env : LdEnv)
    (U : List String) (W : Nat) :
    ∀ (fuel : Nat) (st : LdState),
      (∀ n ∈ U, ∀ path, env.resolve n = some path →
        (env.load path).provides = some (basename n) ∧
        (∀ d ∈ (env.load path).deps, d ∈ U) ∧ (env.load path).deps.length < W) →
      (∀ n ∈ st.unsatisfied, n ∈ U) →
      W * unsatCount U st.satisfied + st.unsatisfied.length ≤ fuel →
      load_dependencies cfg env fuel st ≠ .outOfFuel := by
  intro fuel
  induction fuel with
  | zero =>
    intro st hW hq hm
    have hlen : st.unsatisfied.length = 0 := by omega
    have he : st.unsatisfied.isEmpty = true := by
      cases hu : st.unsatisfied with
      | nil => rfl
      | cons a t => rw [hu] at hlen; simp at hlen
    simp [load_dependencies, he]
  | succ f ih =>
    intro st hW hq hm
    rcases hqs : st.unsatisfied with _ | ⟨dep, rest⟩
    · simp [load_dependencies, hqs]
    · simp only [load_dependencies, hqs]
      have hdepU : dep ∈ U := hq dep (by rw [hqs]; exact List.mem_cons_self dep rest)
      have hrestU : ∀ n ∈ rest, n ∈ U := fun n hn =>
        hq n (by rw [hqs]; exact List.mem_cons_of_mem dep hn)
      have hmlen : W * unsatCount U st.satisfied + (rest.length + 1) ≤ f + 1 := by
        rw [hqs] at hm
        simpa using hm
      by_cases h1 : basename dep ∈ st.satisfied
      · rw [if_pos h1]
        refine ih _ hW hrestU ?_
        show W * unsatCount U st.satisfied + rest.length ≤ f
        omega
      · rw [if_neg h1]
        by_cases h2 : cfg.ignore_import_version_numbers = true ∧ pyStrip dep ∈ st.satisfied
        · rw [if_pos h2]
          refine ih _ hW hrestU ?_
          show W * unsatCount U st.satisfied + rest.length ≤ f
          omega
        · rw [if_neg h2]
          cases hr : env.resolve dep with
          | none =>
            simp only [hr]
            by_cases h3 : cfg.except_missing_libs = true
            · rw [if_pos h3]
              simp
            · rw [if_neg h3]
              refine ih _ hW hrestU ?_
              show W * unsatCount U st.satisfied + rest.length ≤ f
              omega
          | some path =>
            simp only [hr]
            obtain ⟨hprov, hdeps, hlenW⟩ := hW dep hdepU path hr
            refine ih _ hW ?_ ?_
            · intro n hn
              have hn' : n ∈ (if cfg.auto_load_libs = true then
                  rest ++ (env.load path).deps else rest) := hn
              by_cases hauto : cfg.auto_load_libs = true
              · rw [if_pos hauto] at hn'
                rcases List.mem_append.mp hn' with h | h
                · exact hrestU n h
                · exact hdeps n h
              · rw [if_neg hauto] at hn'
                exact hrestU n hn'
            · show W * unsatCount U (add_object cfg { st with unsatisfied := rest }
                  (env.load path) (env.lib_custom_base (basename path))).satisfied +
                (add_object cfg { st with unsatisfied := rest }
                  (env.load path) (env.lib_custom_base (basename path))).unsatisfied.length ≤ f
              have hms := add_object_measure cfg U W { st with unsatisfied := rest }
                (env.load path) (env.lib_custom_base (basename path)) dep hprov hdepU h1 hlenW
              rw [show ({ st with unsatisfied := rest } : LdState).satisfied =
                st.satisfied from rfl] at hms
              rw [show ({ st with unsatisfied := rest } : LdState).unsatisfied =
                rest from rfl] at hms
              omega

/-- C5 (confirmed): first, a popped name whose basename — or, under fuzzy
matching, whose stripped form — is already satisfied is dropped with no
other state change, for EVERY environment (so no path search can be
consulted and no image is loaded for it, and the step cannot raise); second,
together with `add_object` placing each loaded image's `provides` into the
satisfied set, the dedup check bounds the loop: with enough fuel for the
weighted measure the loop never hits the fuel bound, even when the
dependency graph is cyclic. -/
theorem C5_dedup_skip_and_termination :
    (∀ (cfg : LdConfig) (env : LdEnv) (fuel : Nat) (st : LdState) (dep : String)
      (rest : List String),
      st.unsatisfied = dep :: rest →
      (basename dep ∈ st.satisfied ∨
        (cfg.ignore_import_version_numbers = true ∧ pyStrip dep ∈ st.satisfied)) →
      load_dependencies cfg env (fuel + 1) st =
        load_dependencies cfg env fuel { st with unsatisfied := rest })
    ∧ (∀ (cfg : LdConfig) (env : LdEnv) (U : List String) (W fuel : Nat) (st : LdState),
      (∀ n ∈ U, ∀ path, env.resolve n = some path →
        (env.load path).provides = some (basename n) ∧
        (∀ d ∈ (env.load path).deps, d ∈ U) ∧ (env.load path).deps.length < W) →
      (∀ n ∈ st.unsatisfied, n ∈ U) →
      W * unsatCount U st.satisfied + st.unsatisfied.length ≤ fuel →
      load_dependencies cfg env fuel st ≠ .outOfFuel) := by
  constructor
  · intro cfg env fuel st dep rest hq hskip
    simp only [load_dependencies, hq]
    by_cases h1 : basename dep ∈ st.satisfied
    · rw [if_pos h1]
    · rcases hskip with h1' | h2
      · exact absurd h1' h1
      · rw [if_neg h1, if_pos h2]
  · intro cfg env U W fuel st hW hq hm
    exact load_dependencies_not_outOfFuel cfg env U W fuel st hW hq hm

/-- Two shared libraries depending cyclically on each other, each providing
its own name (claim C5 witness input). -/
def objCycA : CleObj :=
  { binary := "liba.so", provides := some "liba.so", deps := ["libb.so"],
    memOffsets := [], exports := [], imports := [],
    minOffset := 0, maxOffset := 0, isIda := false }

/-- The second half of the dependency cycle. -/
def objCycB : CleObj :=
  { binary := "libb.so", provides := some "libb.so", deps := ["liba.so"],
    memOffsets := [], exports := [], imports := [],
    minOffset := 0, maxOffset := 0, isIda := false }

/-- An environment realizing the `liba.so` / `libb.so` cycle. -/
def envCyc : LdEnv :=
  { resolve := fun n =>
      if n = "liba.so" then some "liba.so"
      else if n = "libb.so" then some "libb.so"
      else none,
    load := fun p => if p = "liba.so" then objCycA else objCycB,
    lib_custom_base := fun _ => none }

/-- A loader state about to enter the cycle. -/
def stCyc : LdState := { stEmpty with unsatisfied := ["liba.so"] }

/-- A loader state whose queued name is already satisfied. -/
def stSkip : LdState :=
  { stEmpty with unsatisfied := ["libc.so.6"], satisfied := ["libc.so.6"] }

/-- C5 witness: the satisfied name is skipped with only the pop, and the
cyclic `liba.so`/`libb.so` graph drains within the computed fuel bound. -/
theorem C5_dedup_skip_and_termination_witness :
    (load_dependencies {} envNone 1 stSkip =
      load_dependencies {} envNone 0 { stSkip with unsatisfied := [] })
    ∧ load_dependencies {} envCyc 5 stCyc ≠ .outOfFuel := by
  constructor
  · exact C5_dedup_skip_and_termination.1 {} envNone 0 stSkip "libc.so.6" []
      rfl (Or.inl (by decide))
  · refine C5_dedup_skip_and_termination.2 {} envCyc ["liba.so", "libb.so"] 2 5 stCyc
      ?_ (by decide) (by decide)
    intro n hn path hp
    rcases List.mem_cons.mp hn with heq | hn'
    · subst heq
      have h0 : envCyc.resolve "liba.so" = some "liba.so" := by decide
      rw [h0] at hp
      have hpath := Option.some.inj hp
      subst hpath
      exact ⟨by decide, by decide, by decide⟩
    · rcases List.mem_cons.mp hn' with heq | hn''
      · subst heq
        have h0 : envCyc.resolve "libb.so" = some "libb.so" := by decide
        rw [h0] at hp
        have hpath := Option.some.inj hp
        subst hpath
        exact ⟨by decide, by decide, by decide⟩
      · simp at hn''

end Cle
